import Mathlib

/-!
Verification development for the cursor_chat_browser extraction pipeline.

The definitions below are shallow embeddings of the Python source:

* `src/utils/json_utils.py` — the tolerant JSON parser `safe_parse_json`,
  together with a model of Python's strict `json.loads` (`strictParse`) and of
  the regex substitution `re.sub(r',\s*([}\]])', r'\1', s)` (`reSubTrailingComma`).
* `src/utils/file_utils.py` — `format_time`, the filename-generation part of
  `save_json_file`, and `remove_duplicates`.
* `src/extractor/cursor_data_extractor.py` — the record normalizer inside
  `get_chat_data` (chat tabs with bubbles, composer conversations, role and
  text resolution).
* `src/core/db_utils.py` — `get_db_connection` / `safe_db_connection`.

Machine-level caveats of the embedding are stated in the doc comment of each
definition concerned (Unicode tables are modelled on the ranges the data can
exercise, IEEE floats are carried as their source lexeme, the local timezone of
`datetime.fromtimestamp` is modelled as UTC).
-/

/-- Model of a parsed JSON value as produced by Python's `json.loads`.
Integers are exact (`Int`, Python ints are unbounded); a number written with a
fraction or exponent (parsed by Python to an IEEE float) is carried as its
source lexeme in `jnum` — IEEE rounding is not modelled, and no claim in this
development compares float values.  An object is the final association list of
the Python dict: insertion order, later duplicate keys overwrite in place. -/
inductive Json where
  | jnull
  | jbool (b : Bool)
  | jint (n : Int)
  | jnum (lex : String)
  | jstr (s : String)
  | jarr (xs : List Json)
  | jobj (kvs : List (String × Json))

open Json

/-- JSON whitespace as accepted by Python's `json` module between tokens:
exactly space, tab, newline, carriage return (`json.decoder.WHITESPACE_STR`). -/
def jsonWs (c : Char) : Bool :=
  c = ' ' ∨ c = '\t' ∨ c = '\n' ∨ c = '\r'

/-- Drop leading JSON whitespace. -/
def skipWs : List Char → List Char
  | [] => []
  | c :: cs => if jsonWs c then skipWs cs else c :: cs

/-- Decimal digit test (ASCII), as in the number regex of `json.scanner`. -/
def isDig (c : Char) : Bool := '0' ≤ c ∧ c ≤ '9'

/-- Hex digit value, for `\uXXXX` escapes (Python accepts both cases). -/
def hexVal (c : Char) : Option Nat :=
  if '0' ≤ c ∧ c ≤ '9' then some (c.toNat - '0'.toNat)
  else if 'a' ≤ c ∧ c ≤ 'f' then some (c.toNat - 'a'.toNat + 10)
  else if 'A' ≤ c ∧ c ≤ 'F' then some (c.toNat - 'A'.toNat + 10)
  else none

/-- Combine four hex digits into a code unit. -/
def hex4 (a b c d : Char) : Option Nat :=
  match hexVal a, hexVal b, hexVal c, hexVal d with
  | some x, some y, some z, some w => some (((x * 16 + y) * 16 + z) * 16 + w)
  | _, _, _, _ => none

/-- Make a `Char` from a code point, mapping values that are not Unicode
scalar values (lone surrogates, which Python's `json` keeps in the `str`) to
U+FFFD: Lean strings cannot carry surrogates.  No claim exercises this case. -/
def charOfCode (n : Nat) : Char :=
  if n < 0xd800 ∨ (0xe000 ≤ n ∧ n < 0x110000) then Char.ofNat n else '�'

/-- String body scanner of `json.scanner.py_scanstring` in strict mode: after
the opening quote, ordinary characters up to the closing quote, with `\"`,
`\\`, `\/`, `\b`, `\f`, `\n`, `\r`, `\t` and `\uXXXX` escapes (surrogate pairs
combined); a raw control character below U+0020 or a bad escape is an error.
`fuel` only bounds the recursion; every step consumes at least one input
character, so callers pass `length + 1` and the bound is never hit. -/
def scanString : Nat → List Char → Option (List Char × List Char)
  | 0, _ => none
  | _, [] => none
  | _, '"' :: rest => some ([], rest)
  | fuel + 1, '\\' :: 'u' :: a :: b :: c :: d :: rest =>
    match hex4 a b c d with
    | none => none
    | some n =>
      if 0xd800 ≤ n ∧ n ≤ 0xdbff then
        match rest with
        | '\\' :: 'u' :: a2 :: b2 :: c2 :: d2 :: rest2 =>
          match hex4 a2 b2 c2 d2 with
          | some m =>
            if 0xdc00 ≤ m ∧ m ≤ 0xdfff then
              match scanString fuel rest2 with
              | some (s, r) =>
                some (charOfCode (0x10000 + (n - 0xd800) * 0x400 + (m - 0xdc00)) :: s, r)
              | none => none
            else
              match scanString fuel rest with
              | some (s, r) => some (charOfCode n :: s, r)
              | none => none
          | none =>
            match scanString fuel rest with
            | some (s, r) => some (charOfCode n :: s, r)
            | none => none
        | _ =>
          match scanString fuel rest with
          | some (s, r) => some (charOfCode n :: s, r)
          | none => none
      else
        match scanString fuel rest with
        | some (s, r) => some (charOfCode n :: s, r)
        | none => none
  | fuel + 1, '\\' :: e :: rest =>
    let esc : Option Char :=
      if e = '"' then some '"'
      else if e = '\\' then some '\\'
      else if e = '/' then some '/'
      else if e = 'b' then some '\x08'
      else if e = 'f' then some '\x0c'
      else if e = 'n' then some '\n'
      else if e = 'r' then some '\r'
      else if e = 't' then some '\t'
      else none
    match esc with
    | none => none
    | some c =>
      match scanString fuel rest with
      | some (s, r) => some (c :: s, r)
      | none => none
  | fuel + 1, c :: rest =>
    if c.toNat < 0x20 then none
    else
      match scanString fuel rest with
      | some (s, r) => some (c :: s, r)
      | none => none

/-- Integer value of a list of decimal digits. -/
def digitsVal (ds : List Char) : Nat :=
  ds.foldl (fun acc c => acc * 10 + (c.toNat - '0'.toNat)) 0

/-- Number scanner, following `json.scanner.NUMBER_RE`
`(-?(?:0|[1-9]\d*))(\.\d+)?([eE][-+]?\d+)?`: a leading-zero integer part stops
after the `0`; a dot or exponent not followed by a digit is left unconsumed
(Python then fails at the outer level on the trailing text).  A plain integer
becomes `jint`, a number with fraction or exponent becomes `jnum` carrying its
lexeme (Python converts it with `float`). -/
def scanNumber (cs : List Char) : Option (Json × List Char) :=
  let (neg, cs1) := match cs with
    | '-' :: t => (true, t)
    | _ => (false, cs)
  match cs1 with
  | [] => none
  | d :: t =>
    if ¬ isDig d then none
    else
      let (intDs, rest) :=
        if d = '0' then ([d], t)
        else (d :: t.takeWhile isDig, t.dropWhile isDig)
      let (fracDs, rest2) :=
        match rest with
        | '.' :: u =>
          let f := u.takeWhile isDig
          if f = [] then ([], rest) else ('.' :: f, u.dropWhile isDig)
        | _ => ([], rest)
      let (expDs, rest3) :=
        match rest2 with
        | e :: u =>
          if e = 'e' ∨ e = 'E' then
            let (sgn, u2) := match u with
              | s :: v => if s = '+' ∨ s = '-' then ([s], v) else ([], u)
              | [] => ([], u)
            let ds := u2.takeWhile isDig
            if ds = [] then ([], rest2)
            else (e :: (sgn ++ ds), u2.dropWhile isDig)
          else ([], rest2)
        | [] => ([], rest2)
      if fracDs = [] ∧ expDs = [] then
        let v : Int := Int.ofNat (digitsVal intDs)
        some (jint (if neg then -v else v), rest)
      else
        let lex := (if neg then ['-'] else []) ++ intDs ++ fracDs ++ expDs
        some (jnum (String.mk lex), rest3)

/-- Update-or-append on the association list of an object: Python dict
assignment keeps the position of an existing key and overwrites its value. -/
def objInsert (k : String) (v : Json) : List (String × Json) → List (String × Json)
  | [] => [(k, v)]
  | (k', v') :: t => if k' = k then (k, v) :: t else (k', v') :: objInsert k v t

mutual

/-- Value scanner of Python's `json` (strict mode, `allow_nan` default on, so
the literals `NaN`, `Infinity` and `-Infinity` are accepted as floats).
Leading whitespace is skipped here; the accepted language is that of
`json.loads`.  `fuel` only bounds the recursion and is chosen generously by
`strictParse` (every recursive call follows the consumption of at least one
input character, so `2·length + 8` never runs out on accepted input). -/
def parseVal : Nat → List Char → Option (Json × List Char)
  | 0, _ => none
  | fuel + 1, cs =>
    match skipWs cs with
    | [] => none
    | '{' :: rest => parseMembers fuel rest
    | '[' :: rest => parseElems fuel rest
    | '"' :: rest =>
      match scanString (rest.length + 1) rest with
      | some (s, r) => some (jstr (String.mk s), r)
      | none => none
    | 't' :: 'r' :: 'u' :: 'e' :: rest => some (jbool true, rest)
    | 'f' :: 'a' :: 'l' :: 's' :: 'e' :: rest => some (jbool false, rest)
    | 'n' :: 'u' :: 'l' :: 'l' :: rest => some (jnull, rest)
    | 'N' :: 'a' :: 'N' :: rest => some (jnum "NaN", rest)
    | 'I' :: 'n' :: 'f' :: 'i' :: 'n' :: 'i' :: 't' :: 'y' :: rest =>
      some (jnum "Infinity", rest)
    | '-' :: 'I' :: 'n' :: 'f' :: 'i' :: 'n' :: 'i' :: 't' :: 'y' :: rest =>
      some (jnum "-Infinity", rest)
    | cs' => scanNumber cs'

/-- Array body after `[`: empty array, or values separated by commas.  A comma
must be followed by a value (so a trailing comma is an error, as in Python). -/
def parseElems (fuel : Nat) (cs : List Char) : Option (Json × List Char) :=
  match fuel with
  | 0 => none
  | fuel + 1 =>
    match skipWs cs with
    | ']' :: rest => some (jarr [], rest)
    | cs' =>
      match parseVal fuel cs' with
      | none => none
      | some (v, r) => parseElemsLoop fuel [v] r

/-- Continuation of the array body after one parsed element. -/
def parseElemsLoop (fuel : Nat) (acc : List Json) (cs : List Char) :
    Option (Json × List Char) :=
  match fuel with
  | 0 => none
  | fuel + 1 =>
    match skipWs cs with
    | ']' :: rest => some (jarr acc.reverse, rest)
    | ',' :: rest =>
      match parseVal fuel rest with
      | none => none
      | some (v, r) => parseElemsLoop fuel (v :: acc) r
    | _ => none

/-- Object body after `{`: empty object, or `"key": value` pairs separated by
commas; keys must be strings, duplicates overwrite, order is preserved. -/
def parseMembers (fuel : Nat) (cs : List Char) : Option (Json × List Char) :=
  match fuel with
  | 0 => none
  | fuel + 1 =>
    match skipWs cs with
    | '}' :: rest => some (jobj [], rest)
    | '"' :: rest =>
      match scanString (rest.length + 1) rest with
      | none => none
      | some (k, r) =>
        match skipWs r with
        | ':' :: r2 =>
          match parseVal fuel r2 with
          | none => none
          | some (v, r3) => parseMembersLoop fuel (objInsert (String.mk k) v []) r3
        | _ => none
    | _ => none

/-- Continuation of the object body after one parsed pair. -/
def parseMembersLoop (fuel : Nat) (acc : List (String × Json)) (cs : List Char) :
    Option (Json × List Char) :=
  match fuel with
  | 0 => none
  | fuel + 1 =>
    match skipWs cs with
    | '}' :: rest => some (jobj acc, rest)
    | ',' :: rest =>
      match skipWs rest with
      | '"' :: r =>
        match scanString (r.length + 1) r with
        | none => none
        | some (k, r2) =>
          match skipWs r2 with
          | ':' :: r3 =>
            match parseVal fuel r3 with
            | none => none
            | some (v, r4) => parseMembersLoop fuel (objInsert (String.mk k) v acc) r4
          | _ => none
      | _ => none
    | _ => none

end

/-- Model of Python's strict `json.loads` on a `str`: parse one value, allow
surrounding whitespace, and require the whole input to be consumed; `none`
models a raised `json.JSONDecodeError`. -/
def strictParse (s : String) : Option Json :=
  let cs := s.toList
  match parseVal (2 * cs.length + 8) cs with
  | some (v, rest) => if skipWs rest = [] then some v else none
  | none => none

/-- Python's `\s` on a `str` pattern: Unicode whitespace.  ASCII part
`[ \t\n\r\v\f]` plus the separator controls U+001C–U+001F, U+0085, and the
Unicode space characters. -/
def pyRegexWs (c : Char) : Bool :=
  c = ' ' ∨ c = '\t' ∨ c = '\n' ∨ c = '\r' ∨ c = '\x0b' ∨ c = '\x0c' ∨
  (0x1c ≤ c.toNat ∧ c.toNat ≤ 0x1f) ∨ c.toNat = 0x85 ∨ c.toNat = 0xa0 ∨
  c.toNat = 0x1680 ∨ (0x2000 ≤ c.toNat ∧ c.toNat ≤ 0x200a) ∨
  c.toNat = 0x2028 ∨ c.toNat = 0x2029 ∨ c.toNat = 0x202f ∨
  c.toNat = 0x205f ∨ c.toNat = 0x3000

mutual

/-- Scanner of `re.sub(r',\s*([}\]])', r'\1', s)`: left-to-right, at each
position try to match a comma, then whitespace, then a closing brace/bracket;
on a match emit only the closer and resume after it, otherwise emit the
current character and move on by one.  Whitespace cannot start a match, so a
failed attempt re-emits the comma and the skipped whitespace verbatim and
resumes at the character that broke the match.  `fuel` only bounds the
recursion: at least one input character is consumed per two ticks, so the
`2·length + 2` the caller passes is never exhausted. -/
def reSubScan : Nat → List Char → List Char
  | 0, cs => cs
  | _, [] => []
  | fuel + 1, ',' :: rest => reSubAfterComma fuel [] rest
  | fuel + 1, c :: rest => c :: reSubScan fuel rest

/-- State after reading `,` and the whitespace in `pend` (reversed). -/
def reSubAfterComma : Nat → List Char → List Char → List Char
  | 0, pend, cs => ',' :: (pend.reverse ++ cs)
  | _, pend, [] => ',' :: pend.reverse
  | fuel + 1, pend, c :: rest =>
    if c = '}' ∨ c = ']' then c :: reSubScan fuel rest
    else if pyRegexWs c then reSubAfterComma fuel (c :: pend) rest
    else ',' :: (pend.reverse ++ reSubScan fuel (c :: rest))

end

/-- The regex substitution used by the tolerant parser's first repair step. -/
def reSubTrailingComma (s : String) : String :=
  String.mk (reSubScan (2 * s.toList.length + 2) s.toList)

/-- Embedding of `safe_parse_json` (src/utils/json_utils.py lines 7–31): an
empty (falsy) input yields `(none, "empty data")`; otherwise parse strictly;
on failure strip trailing commas before closers and retry; on failure again,
prefix `{` and/or suffix `}` to the cleaned string when missing and retry; a
final failure yields `(none, error)`.  The error component models the Python
error string only as far as the claims discriminate it: `none` versus
`some`. -/
def safe_parse_json (s : String) : Option Json × Option String :=
  if s = "" then (none, some "空のJSONデータ")
  else
    match strictParse s with
    | some v => (some v, none)
    | none =>
      let cleaned := reSubTrailingComma s
      match strictParse cleaned with
      | some v => (some v, none)
      | none =>
        let c1 := if cleaned.startsWith "\x7b" then cleaned else "\x7b" ++ cleaned
        let c2 := if c1.endsWith "\x7d" then c1 else c1 ++ "\x7d"
        match strictParse c2 with
        | some v => (some v, none)
        | none => (none, some "JSONパースエラー")

/-- Lookup in an object's association list. -/
def lookupKV : List (String × Json) → String → Option Json
  | [], _ => none
  | (k', v) :: t, k => if k' = k then some v else lookupKV t k

/-- Python `msg.get(k)` / `k in msg` on a dict value: `some` iff the key is
present.  On a non-dict Python raises `TypeError`/`AttributeError`, which the
extractor's enclosing `except` turns into dropping the whole block; the claims
only exercise dict inputs, and this model returns `none` there. -/
def jGet (j : Json) (k : String) : Option Json :=
  match j with
  | jobj kvs => lookupKV kvs k
  | _ => none

/-- Python `d.get(k, default)`. -/
def jGetD (j : Json) (k : String) (d : Json) : Json :=
  (jGet j k).getD d

/-- Is a float literal's mantissa all zeros (so the float equals 0.0)?  Exact
for ordinary literals; the subnormal underflow of a tiny nonzero literal to
0.0 is not modelled (no claim touches it). -/
def floatLexZero (lex : String) : Bool :=
  let mant := lex.toList.takeWhile (fun c => c ≠ 'e' ∧ c ≠ 'E')
  let ds := mant.filter isDig
  ds ≠ [] ∧ ds.all (fun c => c = '0')

/-- Python truthiness of a JSON-derived value: `None`, `False`, zero numbers,
and empty strings/lists/dicts are falsy. -/
def jTruthy : Json → Bool
  | jnull => false
  | jbool b => b
  | jint n => n != 0
  | jnum lex => ¬ floatLexZero lex
  | jstr s => s != ""
  | jarr xs => ¬ xs.isEmpty
  | jobj kvs => ¬ kvs.isEmpty

/-- Read a float literal as an exact rational `m·10^e`: `some (m, e)` for the
regular `[-]digits[.digits][(e|E)[±]digits]` shape, `none` for `NaN` and the
infinities.  IEEE rounding of the literal is not modelled. -/
def ratOfLex (lex : String) : Option (Int × Int) :=
  let cs := lex.toList
  let (neg, cs1) := match cs with
    | '-' :: t => (true, t)
    | _ => (false, cs)
  let ip := cs1.takeWhile isDig
  let r1 := cs1.dropWhile isDig
  if ip = [] then none
  else
    let (fp, r2) := match r1 with
      | '.' :: u => (u.takeWhile isDig, u.dropWhile isDig)
      | _ => ([], r1)
    let (ex, r3) : Int × List Char := match r2 with
      | e :: u =>
        if e = 'e' ∨ e = 'E' then
          let (esgn, u2) := match u with
            | '+' :: v => (1, v)
            | '-' :: v => (-1, v)
            | _ => (1, u)
          (esgn * Int.ofNat (digitsVal (u2.takeWhile isDig)), u2.dropWhile isDig)
        else (0, r2)
      | [] => (0, r2)
    if r3 ≠ [] then none
    else
      let m : Int := Int.ofNat (digitsVal (ip ++ fp))
      some (if neg then -m else m, ex - Int.ofNat fp.length)

/-- Floor of `m · 10^e / d` over the integers. -/
def floorDivPow (m : Int) (e : Int) (d : Nat) : Int :=
  if 0 ≤ e then (m * (10 : Int) ^ e.toNat).fdiv d
  else m.fdiv ((10 : Int) ^ (-e).toNat * (d : Int))

/-- Civil date of a day count from 1970-01-01 (Howard Hinnant's algorithm). -/
def civilFromDays (z : Int) : Int × Int × Int :=
  let z2 := z + 719468
  let era := z2.fdiv 146097
  let doe := z2 - era * 146097
  let yoe := (doe - doe.fdiv 1460 + doe.fdiv 36524 - doe.fdiv 146096).fdiv 365
  let doy := doe - (365 * yoe + yoe.fdiv 4 - yoe.fdiv 100)
  let mp := (5 * doy + 2).fdiv 153
  let dy := doy - (153 * mp + 2).fdiv 5 + 1
  let mo := if mp < 10 then mp + 3 else mp - 9
  (if mo ≤ 2 then era * 400 + yoe + 1 else era * 400 + yoe, mo, dy)

/-- Zero-padded two-digit field, as `%m`/`%d`/`%H`/`%M`/`%S` print it. -/
def pad2 (n : Int) : String :=
  if n < 10 then "0" ++ toString n else toString n

/-- Model of `datetime.fromtimestamp(secs).strftime("%Y-%m-%d %H:%M:%S")`, with the
local timezone modelled as UTC (the one timezone-free reading of the source;
no claim depends on a particular zone).  `%Y` prints the year unpadded as
glibc does; all years the claims use have four digits. -/
def fmtDateTime (secs : Int) : String :=
  let days := secs.fdiv 86400
  let sod := secs - days * 86400
  let (y, mo, dy) := civilFromDays days
  toString y ++ "-" ++ pad2 mo ++ "-" ++ pad2 dy ++ " " ++
    pad2 (sod.fdiv 3600) ++ ":" ++ pad2 ((sod.fdiv 60) % 60) ++ ":" ++ pad2 (sod % 60)

/-- Model of `datetime.fromtimestamp(secs).strftime("%Y%m%d")`, same conventions. -/
def fmtYmd (secs : Int) : String :=
  let days := secs.fdiv 86400
  let (y, mo, dy) := civilFromDays days
  toString y ++ pad2 mo ++ pad2 dy

/-- Smallest epoch second `datetime.fromtimestamp` accepts (0001-01-01). -/
def minEpochSec : Int := -62135596800

/-- Largest epoch second `datetime.fromtimestamp` accepts (9999-12-31 23:59:59). -/
def maxEpochSec : Int := 253402300799

/-- Does `datetime.fromtimestamp` succeed on these (floored) epoch seconds?
Outside this range it raises and the caller falls into its `except` branch. -/
def inFromtimestampRange (secs : Int) : Bool :=
  minEpochSec ≤ secs ∧ secs ≤ maxEpochSec

/-- Comma-separated join, as `repr` prints list and dict elements. -/
def joinComma : List String → String
  | [] => ""
  | [s] => s
  | s :: t => s ++ ", " ++ joinComma t

/-- Python `repr` of a `str`, as far as the model needs it: single quotes
unless the string holds a single quote and no double quote; backslash, the
quote and the common controls escaped.  The `\xNN`/`\uNNNN` escaping of other
non-printables is not modelled (no claim reaches `str()` of a container). -/
def pyReprStr (s : String) : String :=
  let q : Char := if s.toList.contains '\'' ∧ ¬ s.toList.contains '"' then '"' else '\''
  let body := s.toList.foldr
    (fun c acc =>
      if c = '\\' then '\\' :: '\\' :: acc
      else if c = q then '\\' :: q :: acc
      else if c = '\n' then '\\' :: 'n' :: acc
      else if c = '\r' then '\\' :: 'r' :: acc
      else if c = '\t' then '\\' :: 't' :: acc
      else c :: acc) []
  String.mk (q :: body ++ [q])

mutual

/-- Python `str()` of a value parsed from JSON (reached by `format_time` only
through its `except` branch on containers). -/
def pyRepr : Json → String
  | jnull => "None"
  | jbool true => "True"
  | jbool false => "False"
  | jint n => toString n
  | jnum lex => lex
  | jstr s => pyReprStr s
  | jarr xs => "[" ++ joinComma (pyReprList xs) ++ "]"
  | jobj kvs => "\x7b" ++ joinComma (pyReprFields kvs) ++ "\x7d"

/-- Pointwise `repr` of the elements of a list. -/
def pyReprList : List Json → List String
  | [] => []
  | x :: t => pyRepr x :: pyReprList t

/-- Pointwise `repr` of the `key: value` entries of a dict. -/
def pyReprFields : List (String × Json) → List String
  | [] => []
  | (k, v) :: t => (pyReprStr k ++ ": " ++ pyRepr v) :: pyReprFields t

end

/-- Embedding of `format_time` (src/utils/file_utils.py lines 225-232): a
falsy value returns the placeholder `"不明"` (the source's Japanese for
"unknown"); otherwise the code evaluates
`datetime.fromtimestamp(timestamp / 1000).strftime("%Y-%m-%d %H:%M:%S")`
under a bare `except` that returns `str(timestamp)`.  So an `int` (or float)
renders as the formatted date when `fromtimestamp` accepts it and as its
`str()` otherwise; a truthy string `s` raises `TypeError` at `s / 1000` and
renders as `s` itself; `True` divides like the int 1; truthy containers raise
and render as their `str()`. -/
def format_time (timestamp : Json) : String :=
  if jTruthy timestamp then
    match timestamp with
    | jint n =>
      let secs := n.fdiv 1000
      if inFromtimestampRange secs then fmtDateTime secs else toString n
    | jnum lex =>
      match ratOfLex lex with
      | some (m, e) =>
        let secs := floorDivPow m e 1000
        if inFromtimestampRange secs then fmtDateTime secs else lex
      | none => lex
    | jstr s => s
    | jbool _ => fmtDateTime 0
    | jnull => "不明"
    | v => pyRepr v
  else "不明"

/-- A normalized message dict as built by `get_chat_data`
(src/extractor/cursor_data_extractor.py lines 105-109 and 277-281):
`type` and `text` keep whatever value the lookup produced. -/
structure NMsg where
  type : Json
  text : Json
  timestamp : String

/-- Python iteration over the value bound to `bubbles` when it is truthy: a
list yields its elements, a string its characters, a dict its keys; iterating
a non-iterable raises `TypeError` in Python, aborting the whole chat block of
`get_chat_data` — modelled as yielding nothing (no claim reaches it). -/
def pyIterElems : Json → List Json
  | jarr xs => xs
  | jstr s => s.toList.map (fun c => jstr (String.mk [c]))
  | jobj kvs => kvs.map (fun kv => jstr kv.1)
  | _ => []

/-- Embedding of `bubbles = tab.get('bubbles', []) or []` (line 100): a falsy value —
`None`, `[]`, and the rest — is replaced by the empty list. -/
def chatBubbles (tab : Json) : List Json :=
  let bv := jGetD tab "bubbles" (jarr [])
  if jTruthy bv then pyIterElems bv else []

/-- One chat message dict (lines 105-109). -/
def msgOfBubble (b : Json) : NMsg :=
  { type := jGetD b "type" (jstr "unknown")
    text := jGetD b "text" (jstr "")
    timestamp := format_time (jGetD b "timestamp" (jstr "")) }

/-- The bubble loop of `get_chat_data` (lines 101-111): falsy bubbles are
skipped, a message dict is built for the rest, and it is appended only when
`message["text"]` is truthy. -/
def chatMessages (tab : Json) : List NMsg :=
  (chatBubbles tab).filterMap (fun b =>
    if jTruthy b then
      if jTruthy (msgOfBubble b).text then some (msgOfBubble b) else none
    else none)

/-- Embedding of `tab.get('tabId', '')[:8]` from the default chat title; slicing a
non-string raises in Python (aborting the chat block), modelled as `""`. -/
def pyTake8 : Json → String
  | jstr s => String.mk (s.toList.take 8)
  | _ => ""

/-- One chat record (lines 91-113). -/
structure ChatInfo where
  id : Json
  title : Json
  timestamp : String
  created_at : Json
  messages : List NMsg

/-- Embedding of the per-tab construction in `get_chat_data` (lines 91-113). -/
def chatOfTab (tab : Json) : ChatInfo :=
  { id := jGetD tab "tabId" (jstr "")
    title := jGetD tab "chatTitle" (jstr ("Chat " ++ pyTake8 (jGetD tab "tabId" (jstr ""))))
    timestamp := format_time (jGetD tab "lastSendTime" (jstr ""))
    created_at := jGetD tab "created_at" (jstr "")
    messages := chatMessages tab }

/-- The chats list produced from one parsed chat-data blob (lines 89-113):
present only when the blob is truthy and holds a `tabs` list. -/
def chatsOfChatData (cd : Json) : List ChatInfo :=
  if jTruthy cd then
    match jGet cd "tabs" with
    | some (jarr tabs) => tabs.map chatOfTab
    | _ => []
  else []

/-- The candidate keys for a composer's conversation history, in the priority
order of line 250. -/
def conversationKeys : List String := ["conversation", "history", "messages", "interactions"]

/-- First candidate key bound to a list value (`isinstance(..., list)`,
lines 250-257); no hit yields the empty conversation. -/
def firstListField (c : Json) : List String → List Json
  | [] => []
  | k :: ks =>
    match jGet c k with
    | some (jarr xs) => xs
    | _ => firstListField c ks

/-- Python `msg.get('type') == 1`: `True` compares equal to 1, as does a
float of value 1. -/
def pyEqOne : Json → Bool
  | jint n => n == 1
  | jbool b => b
  | jnum lex =>
    match ratOfLex lex with
    | some (m, e) => if 0 ≤ e then m * (10 : Int) ^ e.toNat == 1 else m == (10 : Int) ^ (-e).toNat
    | none => false
  | _ => false

/-- Role resolution for a composer conversation message (lines 263-268): a
present `type` field maps 1 to `"user"` and anything else to `"assistant"`;
otherwise a present `role` value is used as-is; otherwise `"unknown"`. -/
def roleOfMsg (m : Json) : Json :=
  match jGet m "type" with
  | some tv => if pyEqOne tv then jstr "user" else jstr "assistant"
  | none =>
    match jGet m "role" with
    | some rv => rv
    | none => jstr "unknown"

/-- Text resolution (lines 270-275): the first of `text`, `content`,
`message` that is present with a truthy value; default `""`. -/
def firstTruthyField (m : Json) : List String → Json
  | [] => jstr ""
  | k :: ks =>
    match jGet m k with
    | some v => if jTruthy v then v else firstTruthyField m ks
    | none => firstTruthyField m ks

/-- The resolved text of a conversation message. -/
def textOfMsg (m : Json) : Json :=
  firstTruthyField m ["text", "content", "message"]

/-- One conversation message dict (lines 277-281). -/
def msgOfConvEntry (m : Json) : NMsg :=
  { type := roleOfMsg m
    text := textOfMsg m
    timestamp := format_time (jGetD m "timestamp" jnull) }

/-- The conversation loop of `get_chat_data` (lines 259-282): falsy entries
are skipped; every remaining entry's message is appended — there is no
empty-text filter on this path, unlike the bubble loop. -/
def composerConversation (c : Json) : List NMsg :=
  (firstListField c conversationKeys).filterMap (fun m =>
    if jTruthy m then some (msgOfConvEntry m) else none)

/-- One chat or composer record as `remove_duplicates` sees it: the value of
its `"id"` entry (`none` models an absent or `null` id — `chat.get("id")`
returns `None` for both) and the record's remaining payload, which
`remove_duplicates` never inspects.  The extractor writes string ids, on
which Python `==` and set membership agree with structural equality here. -/
structure PyRec where
  id : Option String
  payload : List (String × String)
deriving DecidableEq, Repr

/-- The extraction-result dict of `get_chat_data`: `workspace_id`,
`workspace_path`, the two record lists, and any other entries (`extra`).
`remove_duplicates` reassigns only the `"chats"` and `"composers"` entries. -/
structure ExtractionResult where
  workspace_id : String
  workspace_path : String
  chats : List PyRec
  composers : List PyRec
  extra : List (String × String)
deriving DecidableEq, Repr

/-- One pass of the `remove_duplicates` loop (src/utils/file_utils.py lines
363-369 and 372-378): a record survives iff its id is truthy (present and
non-empty) and not yet in the `seen` set; surviving ids are added to `seen`. -/
def dedupLoop (seen : List String) : List PyRec → List PyRec
  | [] => []
  | r :: rs =>
    match r.id with
    | some s =>
      if s ≠ "" ∧ s ∉ seen then r :: dedupLoop (s :: seen) rs
      else dedupLoop seen rs
    | none => dedupLoop seen rs

/-- Embedding of `remove_duplicates` (src/utils/file_utils.py lines 361-380). -/
def remove_duplicates (d : ExtractionResult) : ExtractionResult :=
  { d with chats := dedupLoop [] d.chats, composers := dedupLoop [] d.composers }

/-- Substring prefix test over character lists. -/
def isPrefixSeq : List Char → List Char → Bool
  | [], _ => true
  | _ :: _, [] => false
  | p :: ps, c :: cs => p = c ∧ isPrefixSeq ps cs

/-- Python `pat in s` on strings: substring containment. -/
def containsSeq (pat : List Char) : List Char → Bool
  | [] => isPrefixSeq pat []
  | c :: cs => isPrefixSeq pat (c :: cs) ∨ containsSeq pat cs

/-- Match of the source's date pattern anchored at the front: `20\d{2}`,
then an optional dash-or-slash separator, `(\d{2})`, another optional
separator, `(\d{2})`; the year, month and day groups are returned.  The
optional separators are deterministic: when the next character is a dash or
slash the alternative that skips it dies immediately at `\d{2}`, so no
backtracking is modelled away. -/
def matchFullDate : List Char → Option (String × String × String)
  | '2' :: '0' :: y1 :: y2 :: rest =>
    if isDig y1 ∧ isDig y2 then
      let rest2 := match rest with
        | sep :: t => if sep = '-' ∨ sep = '/' then t else rest
        | [] => rest
      match rest2 with
      | m1 :: m2 :: rest3 =>
        if isDig m1 ∧ isDig m2 then
          let rest4 := match rest3 with
            | sep :: t => if sep = '-' ∨ sep = '/' then t else rest3
            | [] => rest3
          match rest4 with
          | d1 :: d2 :: _ =>
            if isDig d1 ∧ isDig d2 then
              some (String.mk ['2', '0', y1, y2], String.mk [m1, m2], String.mk [d1, d2])
            else none
          | _ => none
        else none
      | _ => none
    else none
  | _ => none

/-- Leftmost `re.search` of the full date pattern. -/
def searchFullDate : List Char → Option (String × String × String)
  | [] => none
  | c :: cs =>
    match matchFullDate (c :: cs) with
    | some r => some r
    | none => searchFullDate cs

/-- Match of `20\d{2}` anchored at the front. -/
def matchYear : List Char → Option String
  | '2' :: '0' :: a :: b :: _ =>
    if isDig a ∧ isDig b then some (String.mk ['2', '0', a, b]) else none
  | _ => none

/-- Leftmost `re.search(r'(20\d{2})', s)`. -/
def searchYear : List Char → Option String
  | [] => none
  | c :: cs =>
    match matchYear (c :: cs) with
    | some r => some r
    | none => searchYear cs

/-- One chat's `created_at` turned into a `YYYYMMDD` fragment, when the loop
body of `save_json_file` (lines 240-261) succeeds on it; `none` models both
the caught exception and the fall-through without `break`.  An `int`/`float`
(including `bool`, a Python `int`) goes through `datetime.fromtimestamp` in
seconds; a string containing `"20"` goes through the two regex searches —
note the year group is searched independently of the month/day match, as in
the source. -/
def tsFromCreatedAt : Json → Option String
  | jint n => if inFromtimestampRange n then some (fmtYmd n) else none
  | jbool _ => some (fmtYmd 1)
  | jnum lex =>
    match ratOfLex lex with
    | some (m, e) =>
      let secs := floorDivPow m e 1
      if inFromtimestampRange secs then some (fmtYmd secs) else none
    | none => none
  | jstr s =>
    if containsSeq ['2', '0'] s.toList then
      match searchFullDate s.toList with
      | some (_, mo, dy) =>
        match searchYear s.toList with
        | some y => some (y ++ mo ++ dy)
        | none => none
      | none => none
    else none
  | _ => none

/-- The chats loop of `save_json_file` (lines 240-261): first chat whose
truthy `created_at` yields a date fragment. -/
def chatsTimestamp (chats : List Json) : Option String :=
  chats.findSome? (fun c =>
    let ca := jGetD c "created_at" jnull
    if jTruthy ca then tsFromCreatedAt ca else none)

/-- The composers loop of `save_json_file` (lines 264-279): only truthy
string `created_at`s containing `"20"` are considered, with the single
three-group regex. -/
def composersTimestamp (composers : List Json) : Option String :=
  composers.findSome? (fun c =>
    match jGet c "created_at" with
    | some (jstr s) =>
      if s ≠ "" ∧ containsSeq ['2', '0'] s.toList then
        match searchFullDate s.toList with
        | some (y, mo, dy) => some (y ++ mo ++ dy)
        | none => none
      else none
    | _ => none)

/-- Python's `\w` on a `str` pattern beyond ASCII, on the character ranges
the repository's data can exercise: Latin-1 letters, Greek, Cyrillic,
Hiragana, Katakana (with prolonged-sound mark), and the unified CJK block.
All of these are word characters to Python's `re`; the full Unicode table is
larger, but only membership of these ranges is ever evaluated here. -/
def pyWordExtra (c : Char) : Bool :=
  (0xc0 ≤ c.toNat ∧ c.toNat ≤ 0xff ∧ c.toNat ≠ 0xd7 ∧ c.toNat ≠ 0xf7) ∨
  (0x391 ≤ c.toNat ∧ c.toNat ≤ 0x3c9) ∨
  (0x410 ≤ c.toNat ∧ c.toNat ≤ 0x44f) ∨
  (0x3041 ≤ c.toNat ∧ c.toNat ≤ 0x3096) ∨
  (0x30a1 ≤ c.toNat ∧ c.toNat ≤ 0x30fa) ∨ c.toNat = 0x30fc ∨
  (0x4e00 ≤ c.toNat ∧ c.toNat ≤ 0x9fff)

/-- A character kept by `re.sub(r'[^\w\-]', '', part)`: Python's Unicode
`\w` (ASCII alphanumerics, underscore, and the word characters above) or a
hyphen. -/
def keptBySanitizer (c : Char) : Bool :=
  c.isAlphanum ∨ c = '_' ∨ pyWordExtra c ∨ c = '-'

/-- Split on a separator character, keeping empty pieces, like `str.split`
with an explicit separator. -/
def splitCharList (sep : Char) : List Char → List (List Char)
  | [] => [[]]
  | c :: cs =>
    if c = sep then [] :: splitCharList sep cs
    else
      match splitCharList sep cs with
      | h :: t => (c :: h) :: t
      | [] => [[c]]

/-- The `path_id` computation of `save_json_file` (lines 290-313): for a
truthy string path other than `"Unknown"`, split on `\` when present else
`/`, walk the pieces from the end, and on the first piece that is non-empty
and neither `.` nor `..` return `"_"` plus the sanitized piece capped at 20
characters.  A truthy non-string raises inside the `try` and yields
`"_unknown"`; a falsy or `"Unknown"` path skips the block and leaves `""`. -/
def pathIdOf : Json → String
  | jstr s =>
    if s = "" ∨ s = "Unknown" then ""
    else
      let cs := s.toList
      let parts := if cs.contains '\\' then splitCharList '\\' cs else splitCharList '/' cs
      match parts.reverse.find? (fun p => p != [] && p != ['.'] && p != ['.', '.']) with
      | some p => "_" ++ String.mk ((p.filter keptBySanitizer).take 20)
      | none => ""
  | v => if jTruthy v then "_unknown" else ""

/-- The filename computation of `save_json_file` (src/utils/file_utils.py
lines 234-330): a `YYYYMMDD` fragment from the chats, else from the
composers, else `today` (standing for `datetime.now().strftime('%Y%m%d')`);
then `ws_<date><path_id>.json`, with the path fragment dropped if the result
would exceed 200 characters.  The file writing and its fallbacks are I/O and
are not part of the name computation. -/
def save_json_filename (chats composers : List Json) (workspace_path : Json)
    (today : String) : String :=
  let ts := match chatsTimestamp chats with
    | some t => t
    | none =>
      match composersTimestamp composers with
      | some t => t
      | none => today
  let pid := pathIdOf workspace_path
  let filename := "ws_" ++ ts ++ pid ++ ".json"
  if filename.length > 200 then "ws_" ++ ts ++ ".json" else filename

/-- A character the spec's filename alphabet `[A-Za-z0-9_.-]` allows. -/
def filenameCharOk (c : Char) : Bool :=
  c.isAlphanum ∨ c = '_' ∨ c = '.' ∨ c = '-'

/-- Outcome of the `sqlite3.connect` attempt in `get_db_connection`
(src/core/db_utils.py lines 287-335), one constructor per handled branch:
a clean open, a "database is locked" error, a "no such table" error (a valid
but empty database — the connection is still returned), an "unable to open
database file" error, any other `OperationalError`, or a non-operational
exception, in which case the code falls back to a direct connect whose
success is `fallbackOk`. -/
inductive SqliteOutcome where
  | ok
  | locked
  | noSuchTable
  | unableToOpen
  | otherOperational
  | otherException (fallbackOk : Bool)
deriving DecidableEq, Repr

/-- The observable state of a database path, as probed by the accessor on
the Unix code path: existence, readability, size, whether `open(path, 'r')`
succeeds, whether the non-blocking shared `flock` is granted, and how the
SQLite open then behaves. -/
structure DbPathState where
  fileExists : Bool
  readable : Bool
  fileSize : Nat
  openForRead : Bool
  flockShared : Bool
  connectOutcome : SqliteOutcome
deriving DecidableEq, Repr

/-- A live read-only connection (the claims only discriminate `some`/`none`). -/
inductive DbConn where
  | live
deriving DecidableEq, Repr

/-- Embedding of `get_db_connection` (src/core/db_utils.py lines 210-335),
Unix branch: reject a missing, unreadable or zero-size file; reject when the
lock probe fails; then map the connect outcome as the source's handlers do.
Every raised exception the source catches returns `None`, so the embedding
is a total function into `Option`. -/
def get_db_connection (st : DbPathState) : Option DbConn :=
  if ¬ st.fileExists then none
  else if ¬ st.readable then none
  else if st.fileSize = 0 then none
  else if ¬ st.openForRead then none
  else if ¬ st.flockShared then none
  else
    match st.connectOutcome with
    | .ok => some .live
    | .locked => none
    | .noSuchTable => some .live
    | .unableToOpen => none
    | .otherOperational => none
    | .otherException fallbackOk => if fallbackOk then some .live else none

/-- Embedding of the `safe_db_connection` context manager (lines 337-355):
it yields the result of `get_db_connection` and converts any escaping
exception to `None`, so the boundary never raises. -/
def safe_db_connection (st : DbPathState) : Option DbConn :=
  get_db_connection st


/-- Unfolding of `dedupLoop` on a cons cell. -/
theorem dedupLoop_cons (seen : List String) (r : PyRec) (rs : List PyRec) :
    dedupLoop seen (r :: rs) =
      match r.id with
      | some s =>
        if s ≠ "" ∧ s ∉ seen then r :: dedupLoop (s :: seen) rs
        else dedupLoop seen rs
      | none => dedupLoop seen rs := rfl

/-- Unfolding of `dedupLoop` on a record with a present id. -/
theorem dedupLoop_cons_some {r : PyRec} {s : String} (seen : List String)
    (rs : List PyRec) (h : r.id = some s) :
    dedupLoop seen (r :: rs) =
      if s ≠ "" ∧ s ∉ seen then r :: dedupLoop (s :: seen) rs
      else dedupLoop seen rs := by
  rw [dedupLoop_cons, h]

/-- Unfolding of `dedupLoop` on a record with an absent id. -/
theorem dedupLoop_cons_none {r : PyRec} (seen : List String) (rs : List PyRec)
    (h : r.id = none) :
    dedupLoop seen (r :: rs) = dedupLoop seen rs := by
  rw [dedupLoop_cons, h]

/-- Every record of a `dedupLoop` result came from the input and carries a
truthy id that was not yet seen. -/
theorem mem_dedupLoop {seen : List String} {l : List PyRec} {r : PyRec}
    (h : r ∈ dedupLoop seen l) :
    r ∈ l ∧ ∃ s, r.id = some s ∧ s ≠ "" ∧ s ∉ seen := by
  induction l generalizing seen with
  | nil => simp [dedupLoop] at h
  | cons r0 rs ih =>
    cases h0 : r0.id with
    | none =>
      rw [dedupLoop_cons_none seen rs h0] at h
      obtain ⟨hm, hs⟩ := ih h
      exact ⟨List.mem_cons_of_mem _ hm, hs⟩
    | some s0 =>
      rw [dedupLoop_cons_some seen rs h0] at h
      split at h
      case isTrue hc =>
        rcases List.mem_cons.mp h with rfl | hm
        · exact ⟨List.mem_cons_self _ _, s0, h0, hc.1, hc.2⟩
        · obtain ⟨hmem, s, hid, hne, hnot⟩ := ih hm
          exact ⟨List.mem_cons_of_mem _ hmem, s, hid, hne,
            fun hs => hnot (List.mem_cons_of_mem _ hs)⟩
      case isFalse hc =>
        obtain ⟨hm, hs⟩ := ih h
        exact ⟨List.mem_cons_of_mem _ hm, hs⟩

/-- The deduplicated list is a sublist of the input, so the surviving records
keep their relative order. -/
theorem dedupLoop_sublist (seen : List String) (l : List PyRec) :
    (dedupLoop seen l).Sublist l := by
  induction l generalizing seen with
  | nil => simp [dedupLoop]
  | cons r0 rs ih =>
    cases h0 : r0.id with
    | none =>
      rw [dedupLoop_cons_none seen rs h0]
      exact (ih seen).cons r0
    | some s0 =>
      rw [dedupLoop_cons_some seen rs h0]
      split
      · exact (ih (s0 :: seen)).cons₂ r0
      · exact (ih seen).cons r0

/-- No record with an already-seen id appears in the result. -/
theorem dedupLoop_count_zero {s : String} {seen : List String} {l : List PyRec}
    (hs : s ∈ seen) :
    (dedupLoop seen l).countP (fun r => r.id == some s) = 0 := by
  rw [List.countP_eq_zero]
  intro r hr
  obtain ⟨-, s', hid, -, hnot⟩ := mem_dedupLoop hr
  simp only [hid, beq_iff_eq, Option.some.injEq]
  rintro rfl
  exact hnot hs

/-- Exactly one record with a given fresh, non-empty id survives when at
least one input record carries it. -/
theorem dedupLoop_count_one {s : String} {seen : List String} {l : List PyRec}
    (hne : s ≠ "") (hnot : s ∉ seen) (hex : ∃ r ∈ l, r.id = some s) :
    (dedupLoop seen l).countP (fun r => r.id == some s) = 1 := by
  induction l generalizing seen with
  | nil => simp at hex
  | cons r0 rs ih =>
    cases h0 : r0.id with
    | none =>
      rw [dedupLoop_cons_none seen rs h0]
      obtain ⟨r, hr, hid⟩ := hex
      rcases List.mem_cons.mp hr with rfl | hm
      · rw [h0] at hid; exact Option.noConfusion hid
      · exact ih hnot ⟨r, hm, hid⟩
    | some s0 =>
      rw [dedupLoop_cons_some seen rs h0]
      by_cases hc : s0 ≠ "" ∧ s0 ∉ seen
      · rw [if_pos hc]
        by_cases hss : s0 = s
        · subst hss
          rw [List.countP_cons, dedupLoop_count_zero (List.mem_cons_self _ _)]
          simp [h0]
        · have hhead : (r0.id == some s) = false := by
            rw [h0]
            exact beq_eq_false_iff_ne.mpr (by simp [hss])
          rw [List.countP_cons, hhead]
          simp only [Bool.false_eq_true, if_false, Nat.add_zero]
          obtain ⟨r, hr, hid⟩ := hex
          rcases List.mem_cons.mp hr with rfl | hm
          · rw [h0] at hid
            exact absurd (Option.some.inj hid) hss
          · refine ih ?_ ⟨r, hm, hid⟩
            intro hmem
            rcases List.mem_cons.mp hmem with rfl | hmem2
            · exact hss rfl
            · exact hnot hmem2
      · rw [if_neg hc]
        obtain ⟨r, hr, hid⟩ := hex
        rcases List.mem_cons.mp hr with rfl | hm
        · rw [h0] at hid
          have he : s0 = s := Option.some.inj hid
          subst he
          exact absurd ⟨hne, hnot⟩ hc
        · exact ih hnot ⟨r, hm, hid⟩

/-- The record kept for an id is the first input record carrying that id. -/
theorem dedupLoop_first {seen : List String} {l : List PyRec} {r : PyRec}
    (h : r ∈ dedupLoop seen l) :
    l.find? (fun r2 => r2.id == r.id) = some r := by
  induction l generalizing seen with
  | nil => simp [dedupLoop] at h
  | cons r0 rs ih =>
    cases h0 : r0.id with
    | none =>
      rw [dedupLoop_cons_none seen rs h0] at h
      obtain ⟨-, s, hid, -, -⟩ := mem_dedupLoop h
      rw [List.find?_cons]
      have hhead : (r0.id == r.id) = false := by simp [h0, hid]
      rw [hhead]
      exact ih h
    | some s0 =>
      rw [dedupLoop_cons_some seen rs h0] at h
      split at h
      case isTrue hc =>
        rcases List.mem_cons.mp h with rfl | hm
        · rw [List.find?_cons]
          have hhead : (r.id == r.id) = true := by simp
          rw [hhead]
        · obtain ⟨-, s, hid, -, hnot⟩ := mem_dedupLoop hm
          have hne : s0 ≠ s := fun e => hnot (e ▸ List.mem_cons_self _ _)
          rw [List.find?_cons]
          have hhead : (r0.id == r.id) = false := by
            rw [h0, hid]
            exact beq_eq_false_iff_ne.mpr (by simp [hne])
          rw [hhead]
          exact ih hm
      case isFalse hc =>
        obtain ⟨-, s, hid, hne2, hnot⟩ := mem_dedupLoop h
        have hne : s0 ≠ s := by
          rintro rfl
          exact hc ⟨hne2, hnot⟩
        rw [List.find?_cons]
        have hhead : (r0.id == r.id) = false := by
          rw [h0, hid]
          exact beq_eq_false_iff_ne.mpr (by simp [hne])
        rw [hhead]
        exact ih h

/-- The ids of a `dedupLoop` result are pairwise distinct. -/
theorem dedupLoop_pairwise (seen : List String) (l : List PyRec) :
    (dedupLoop seen l).Pairwise (fun a b => a.id ≠ b.id) := by
  induction l generalizing seen with
  | nil => simp [dedupLoop]
  | cons r0 rs ih =>
    cases h0 : r0.id with
    | none =>
      rw [dedupLoop_cons_none seen rs h0]
      exact ih seen
    | some s0 =>
      rw [dedupLoop_cons_some seen rs h0]
      split
      · rw [List.pairwise_cons]
        refine ⟨?_, ih (s0 :: seen)⟩
        intro r hr he
        obtain ⟨-, s, hid, -, hnot⟩ := mem_dedupLoop hr
        rw [h0, hid] at he
        exact hnot (Option.some.inj he ▸ List.mem_cons_self _ _)
      · exact ih seen

/-- A list of records with fresh, truthy, pairwise-distinct ids passes
through `dedupLoop` unchanged. -/
theorem dedupLoop_eq_self {seen : List String} {l : List PyRec}
    (hclean : ∀ r ∈ l, ∃ s, r.id = some s ∧ s ≠ "" ∧ s ∉ seen)
    (hnodup : l.Pairwise (fun a b => a.id ≠ b.id)) :
    dedupLoop seen l = l := by
  induction l generalizing seen with
  | nil => simp [dedupLoop]
  | cons r0 rs ih =>
    obtain ⟨s0, h0, hne, hnot⟩ := hclean r0 (List.mem_cons_self _ _)
    rw [dedupLoop_cons_some seen rs h0, if_pos ⟨hne, hnot⟩]
    have hpair := List.pairwise_cons.mp hnodup
    congr 1
    refine ih ?_ hpair.2
    intro r hr
    obtain ⟨s, hid, hsne, hsnot⟩ := hclean r (List.mem_cons_of_mem _ hr)
    refine ⟨s, hid, hsne, ?_⟩
    intro hmem
    rcases List.mem_cons.mp hmem with rfl | hmem2
    · exact hpair.1 r hr (h0.trans hid.symm)
    · exact hsnot hmem2

/-- Running `dedupLoop` on its own output changes nothing. -/
theorem dedupLoop_idem (l : List PyRec) :
    dedupLoop [] (dedupLoop [] l) = dedupLoop [] l := by
  refine dedupLoop_eq_self ?_ (dedupLoop_pairwise [] l)
  intro r hr
  obtain ⟨-, s, hid, hne, -⟩ := mem_dedupLoop hr
  exact ⟨s, hid, hne, List.not_mem_nil s⟩

/-- C2 counterexample: the claim "for every id occurring in the input chats,
exactly one record with that id survives" fails at the empty-string id.  The
input holds one chat whose id is `""`; `remove_duplicates` drops it (the
truthiness test `chat_id and ...` rejects `""`), so zero — not one — records
with that id survive. -/
theorem C2_counterexample :
    (⟨some "", [("title", "t")]⟩ : PyRec) ∈
      (⟨"w", "p", [⟨some "", [("title", "t")]⟩], [], []⟩ : ExtractionResult).chats ∧
    (remove_duplicates ⟨"w", "p", [⟨some "", [("title", "t")]⟩], [], []⟩).chats = [] := by
  exact ⟨List.mem_cons_self _ _, rfl⟩

/-- C2 (amended): `remove_duplicates` is idempotent; for every non-empty id
occurring in the input chats (resp. composers) exactly one record with that
id survives (records with an absent, null or empty id are dropped, see C9);
the output lists are sublists of the inputs, so relative order is preserved;
and the survivor for each id is the first input record carrying it. -/
theorem C2_dedup (d : ExtractionResult) :
    remove_duplicates (remove_duplicates d) = remove_duplicates d ∧
    (∀ s : String, s ≠ "" → (∃ r ∈ d.chats, r.id = some s) →
      ((remove_duplicates d).chats.countP (fun r => r.id == some s)) = 1) ∧
    (∀ s : String, s ≠ "" → (∃ r ∈ d.composers, r.id = some s) →
      ((remove_duplicates d).composers.countP (fun r => r.id == some s)) = 1) ∧
    (remove_duplicates d).chats.Sublist d.chats ∧
    (remove_duplicates d).composers.Sublist d.composers ∧
    (∀ r ∈ (remove_duplicates d).chats,
      d.chats.find? (fun r2 => r2.id == r.id) = some r) ∧
    (∀ r ∈ (remove_duplicates d).composers,
      d.composers.find? (fun r2 => r2.id == r.id) = some r) := by
  refine ⟨?_, ?_, ?_, ?_, ?_, ?_, ?_⟩
  · simp [remove_duplicates, dedupLoop_idem]
  · intro s hne hex
    exact dedupLoop_count_one hne (List.not_mem_nil s) hex
  · intro s hne hex
    exact dedupLoop_count_one hne (List.not_mem_nil s) hex
  · exact dedupLoop_sublist [] d.chats
  · exact dedupLoop_sublist [] d.composers
  · intro r hr
    exact dedupLoop_first hr
  · intro r hr
    exact dedupLoop_first hr

/-- C2 witness: the amended theorem evaluated on a concrete result with a
duplicated chat id. -/
theorem C2_dedup_witness :
    ((remove_duplicates
        ⟨"w", "p", [⟨some "x", [("n", "1")]⟩, ⟨some "x", [("n", "2")]⟩], [⟨some "y", []⟩], []⟩).chats.countP
      (fun r => r.id == some "x")) = 1 ∧
    ((remove_duplicates
        ⟨"w", "p", [⟨some "x", [("n", "1")]⟩, ⟨some "x", [("n", "2")]⟩], [⟨some "y", []⟩], []⟩).composers.countP
      (fun r => r.id == some "y")) = 1 ∧
    remove_duplicates (remove_duplicates
        ⟨"w", "p", [⟨some "x", [("n", "1")]⟩, ⟨some "x", [("n", "2")]⟩], [⟨some "y", []⟩], []⟩) =
      remove_duplicates
        ⟨"w", "p", [⟨some "x", [("n", "1")]⟩, ⟨some "x", [("n", "2")]⟩], [⟨some "y", []⟩], []⟩ := by
  refine ⟨?_, ?_, ?_⟩
  · exact (C2_dedup _).2.1 "x" (by decide)
      ⟨⟨some "x", [("n", "1")]⟩, List.mem_cons_self _ _, rfl⟩
  · exact (C2_dedup _).2.2.1 "y" (by decide)
      ⟨⟨some "y", []⟩, List.mem_cons_self _ _, rfl⟩
  · exact (C2_dedup _).1

/-- C9: every chat and composer record surviving `remove_duplicates` has a
present, non-empty id — a record whose id entry is absent, null or the empty
string is removed even when no other record shares its id, because the
survival test `chat_id and chat_id not in seen` already fails on a falsy id. -/
theorem C9_output_ids_nonempty (d : ExtractionResult) (r : PyRec)
    (h : r ∈ (remove_duplicates d).chats ∨ r ∈ (remove_duplicates d).composers) :
    ∃ s, r.id = some s ∧ s ≠ "" := by
  rcases h with h | h
  · obtain ⟨-, s, hid, hne, -⟩ := mem_dedupLoop h
    exact ⟨s, hid, hne⟩
  · obtain ⟨-, s, hid, hne, -⟩ := mem_dedupLoop h
    exact ⟨s, hid, hne⟩

/-- C9 witness: evaluated on a result holding a unique record with empty id
(dropped) next to a surviving one. -/
theorem C9_output_ids_nonempty_witness :
    ∃ s, (⟨some "a", []⟩ : PyRec).id = some s ∧ s ≠ "" :=
  C9_output_ids_nonempty
    ⟨"w", "p", [⟨some "", [("title", "unique")]⟩, ⟨some "a", []⟩], [], []⟩
    ⟨some "a", []⟩ (Or.inl (by decide))

/-- C10: `remove_duplicates` reassigns only the `chats` and `composers`
entries of the result dict; `workspace_id`, `workspace_path` and every other
entry are returned unchanged. -/
theorem C10_frame (d : ExtractionResult) :
    (remove_duplicates d).workspace_id = d.workspace_id ∧
    (remove_duplicates d).workspace_path = d.workspace_path ∧
    (remove_duplicates d).extra = d.extra :=
  ⟨rfl, rfl, rfl⟩

/-- C4: on any input string the strict parser accepts, the tolerant parser
returns exactly the strict parser's value with a null error — the empty-input
guard cannot fire (the empty string is not valid JSON) and the repair ladder
is only reached on strict failure. -/
theorem C4_valid_json_agreement (s : String) (v : Json)
    (h : strictParse s = some v) :
    safe_parse_json s = (some v, none) := by
  have hs : s ≠ "" := by
    rintro rfl
    rw [show strictParse "" = none from rfl] at h
    exact Option.noConfusion h
  simp [safe_parse_json, hs, h]

/-- C4 witness: a concrete valid document. -/
theorem C4_valid_json_agreement_witness :
    safe_parse_json "[1, 2]" = (some (jarr [jint 1, jint 2]), none) :=
  C4_valid_json_agreement "[1, 2]" (jarr [jint 1, jint 2]) rfl

/-- C5 counterexample: the input `["a,]",]` is valid JSON apart from one
trailing comma before the final `]`, and its comma-free equivalent
`["a,]"]` parses to the one-element array holding the string `a,]`.  But the
repair regex also fires inside the string literal, so the tolerant parser
returns the array holding `a]` instead — not the comma-free equivalent's
value. -/
theorem C5_counterexample :
    strictParse "[\"a,]\",]" = none ∧
    strictParse "[\"a,]\"]" = some (jarr [jstr "a,]"]) ∧
    safe_parse_json "[\"a,]\",]" = (some (jarr [jstr "a]"]), none) ∧
    "a]" ≠ "a,]" :=
  ⟨rfl, rfl, rfl, by decide⟩

/-- C5 (amended): when strict parsing fails and the regex-cleaned string —
every occurrence of a comma plus optional whitespace before `}` or `]`
collapsed, including occurrences inside string literals — parses strictly,
the tolerant parser returns the cleaned string's value with a null error.
For inputs whose only such occurrence is the single trailing comma this is
the comma-free equivalent, as the original claim states. -/
theorem C5_trailing_comma_repair (s : String) (v : Json)
    (h1 : strictParse s = none)
    (h2 : strictParse (reSubTrailingComma s) = some v) :
    safe_parse_json s = (some v, none) := by
  have hs : s ≠ "" := by
    rintro rfl
    rw [show reSubTrailingComma "" = "" from rfl,
      show strictParse "" = none from rfl] at h2
    exact Option.noConfusion h2
  simp [safe_parse_json, hs, h1, h2]

/-- C5 witness: the plain trailing-comma document `[1,]`. -/
theorem C5_trailing_comma_repair_witness :
    safe_parse_json "[1,]" = (some (jarr [jint 1]), none) :=
  C5_trailing_comma_repair "[1,]" (jarr [jint 1]) rfl rfl

/-- C1 counterexample: a composer conversation entry whose resolved text is
empty is NOT dropped — the conversation loop appends every truthy entry
unconditionally.  A conversation with the single entry `{"type": 2}` yields
one output message with role `assistant`, empty text and an unknown
timestamp, so an empty-text message does appear in `Composer.conversation`. -/
theorem C1_counterexample :
    composerConversation (jobj [("conversation", jarr [jobj [("type", jint 2)]])]) =
      [⟨jstr "assistant", jstr "", "不明"⟩] ∧
    jTruthy (jstr "") = false :=
  ⟨rfl, rfl⟩

/-- C1 (amended): the bubble loop does drop empty-text messages — every
message in a chat's output has truthy text, and the claim's two-bubble
scenario yields exactly one message — but the composer conversation loop
keeps every truthy entry regardless of its resolved text: its output is
exactly the per-entry mapping of the truthy conversation entries. -/
theorem C1_empty_text_policy :
    (∀ (tab : Json) (m : NMsg), m ∈ (chatOfTab tab).messages → jTruthy m.text = true) ∧
    (chatOfTab (jobj [("tabId", jstr "t1"),
        ("bubbles", jarr [jobj [("type", jstr "user"), ("text", jstr "hello")],
          jobj [("type", jstr "assistant"), ("text", jstr "")]])])).messages =
      [⟨jstr "user", jstr "hello", "不明"⟩] ∧
    (∀ (c : Json) (m : NMsg), m ∈ composerConversation c →
      ∃ e ∈ firstListField c conversationKeys, jTruthy e = true ∧ m = msgOfConvEntry e) := by
  refine ⟨?_, rfl, ?_⟩
  · intro tab m hm
    simp only [chatOfTab, chatMessages] at hm
    rw [List.mem_filterMap] at hm
    obtain ⟨b, hb, hf⟩ := hm
    split at hf
    · split at hf
      next h2 =>
        cases hf
        exact h2
      next h2 => exact Option.noConfusion hf
    · exact Option.noConfusion hf
  · intro c m hm
    simp only [composerConversation] at hm
    rw [List.mem_filterMap] at hm
    obtain ⟨e, he, hf⟩ := hm
    split at hf
    next h1 =>
      cases hf
      exact ⟨e, he, h1, rfl⟩
    next h1 => exact Option.noConfusion hf

/-- C1 witness: the amended theorem evaluated on the scenario tab and on a
one-entry conversation. -/
theorem C1_empty_text_policy_witness :
    jTruthy (NMsg.text ⟨jstr "user", jstr "hello", "不明"⟩) = true ∧
    (∃ e ∈ firstListField (jobj [("conversation",
        jarr [jobj [("type", jint 1), ("text", jstr "yo")]])]) conversationKeys,
      jTruthy e = true ∧
      (⟨jstr "user", jstr "yo", "不明"⟩ : NMsg) = msgOfConvEntry e) := by
  constructor
  · exact C1_empty_text_policy.1
      (jobj [("tabId", jstr "t1"),
        ("bubbles", jarr [jobj [("type", jstr "user"), ("text", jstr "hello")],
          jobj [("type", jstr "assistant"), ("text", jstr "")]])])
      ⟨jstr "user", jstr "hello", "不明"⟩
      (by rw [C1_empty_text_policy.2.1]; exact List.mem_cons_self _ _)
  · exact C1_empty_text_policy.2.2
      (jobj [("conversation", jarr [jobj [("type", jint 1), ("text", jstr "yo")]])])
      ⟨jstr "user", jstr "yo", "不明"⟩
      (show _ ∈ [(⟨jstr "user", jstr "yo", "不明"⟩ : NMsg)] from List.mem_cons_self _ _)

/-- C6 counterexample: an invalid (truthy, non-numeric) input does not render
as the unknown placeholder: `format_time("abc")` raises `TypeError` at
`"abc" / 1000`, and the bare `except` returns `str(timestamp)`, i.e. the
string itself. -/
theorem C6_counterexample :
    format_time (jstr "abc") = "abc" ∧ "abc" ≠ "不明" ∧ "abc" ≠ "unknown" :=
  ⟨rfl, by decide, by decide⟩

/-- C6 (amended): a falsy (absent, zero or empty) input renders as the
placeholder `"不明"` ("unknown"); a nonzero integer millisecond timestamp in
`fromtimestamp`'s range renders as the fixed `%Y-%m-%d %H:%M:%S` string; but
an invalid truthy input renders as Python's `str()` of the value — for a
non-empty string, the string itself — not as the placeholder. -/
theorem C6_format_time :
    (∀ t : Json, jTruthy t = false → format_time t = "不明") ∧
    (∀ n : Int, jTruthy (jint n) = true → inFromtimestampRange (n.fdiv 1000) = true →
      format_time (jint n) = fmtDateTime (n.fdiv 1000)) ∧
    (∀ s : String, s ≠ "" → format_time (jstr s) = s) := by
  refine ⟨?_, ?_, ?_⟩
  · intro t h
    simp [format_time, h]
  · intro n h1 h2
    simp [format_time, h1, h2]
  · intro s h
    have ht : jTruthy (jstr s) = true := by simp [jTruthy, h]
    simp [format_time, ht]

/-- C6 witness: the amended theorem at `None`, at a concrete in-range
timestamp, and at the string `"abc"`. -/
theorem C6_format_time_witness :
    format_time jnull = "不明" ∧
    format_time (jint 1600000000000) = fmtDateTime ((1600000000000 : Int).fdiv 1000) ∧
    format_time (jstr "abc") = "abc" :=
  ⟨C6_format_time.1 jnull rfl,
   C6_format_time.2.1 1600000000000 (by decide) (by decide),
   C6_format_time.2.2 "abc" (by decide)⟩

/-- C7: a composer conversation message with a numeric `type` resolves to
`user` exactly when the value is 1 and to `assistant` otherwise; with no
`type` key but a `role` string, that string is the role. -/
theorem C7_role_resolution :
    (∀ (m : Json) (n : Int), jGet m "type" = some (jint n) →
      roleOfMsg m = (if n = 1 then jstr "user" else jstr "assistant")) ∧
    (∀ (m : Json) (r : String), jGet m "type" = none → jGet m "role" = some (jstr r) →
      roleOfMsg m = jstr r) := by
  constructor
  · intro m n h
    simp only [roleOfMsg, h, pyEqOne]
    by_cases hn : n = 1 <;> simp [hn]
  · intro m r h1 h2
    simp [roleOfMsg, h1, h2]

/-- C7 witness: type 1, type 2, and a role-only message. -/
theorem C7_role_resolution_witness :
    roleOfMsg (jobj [("type", jint 1)]) = jstr "user" ∧
    roleOfMsg (jobj [("type", jint 2)]) = jstr "assistant" ∧
    roleOfMsg (jobj [("role", jstr "system")]) = jstr "system" := by
  refine ⟨?_, ?_, ?_⟩
  · have h := C7_role_resolution.1 (jobj [("type", jint 1)]) 1 rfl
    simpa using h
  · have h := C7_role_resolution.1 (jobj [("type", jint 2)]) 2 rfl
    simpa using h
  · exact C7_role_resolution.2 (jobj [("role", jstr "system")]) "system" rfl rfl

/-- C8: for a path whose file is missing, unreadable or zero-size, the safe
accessor yields the unavailable signal (`none`); it never raises — the
embedding is a total function, mirroring the source's catch-all handlers. -/
theorem C8_unavailable (st : DbPathState)
    (h : st.fileExists = false ∨ st.readable = false ∨ st.fileSize = 0) :
    safe_db_connection st = none := by
  unfold safe_db_connection get_db_connection
  rcases h with h | h | h <;> simp [h]

/-- C8 witness: a zero-size file. -/
theorem C8_unavailable_witness :
    safe_db_connection ⟨true, true, 0, true, true, SqliteOutcome.ok⟩ = none :=
  C8_unavailable ⟨true, true, 0, true, true, SqliteOutcome.ok⟩ (Or.inr (Or.inr rfl))

/-- C3: the claim (and the source's own comment, which promises "alphanumeric,
underscore, hyphen only" after removing non-ASCII characters) is violated by
the code: `re.sub(r'[^\w\-]', '', part)` uses Python's Unicode-aware `\w`, so
a workspace path ending in a CJK/kana segment puts that character straight
into the filename.  Here the extraction result with workspace path `/home/あ`
produces `ws_20200913_あ.json`, whose character `あ` is outside
`[A-Za-z0-9_.-]`; the 200-character length bound, by contrast, does hold on
this input. -/
theorem C3_filename_charset_bug :
    save_json_filename [jobj [("created_at", jint 1600000000)]] []
        (jstr "/home/あ") "20990101" = "ws_20200913_あ.json" ∧
    'あ' ∈ "ws_20200913_あ.json".toList ∧
    filenameCharOk 'あ' = false ∧
    "ws_20200913_あ.json".length ≤ 200 :=
  ⟨rfl, by decide, by decide, by decide⟩
